import Mathlib

/-!
# Verification of the order-fulfillment saga core

Shallow embedding of the saga core of the commerce backend:
the Inventory Ledger (inventory-service and its storage procedures),
the Order Coordinator (`POST /v1/orders` in the order-service),
the Payment Gateway Adapter (`POST /v1/webhooks/payment` in the
payment-service) and the Event Consumer loop of the notification-service.

Conventions of the embedding:
* Database rows are records in explicit state structures; each HTTP
  handler is a pure function from a request, a state and a fault
  vector (which downstream effects fail and how) to a new state and a
  response value.
* JavaScript exceptions are modelled by the fault vector: a step that can
  throw (the `fetch` inside `callInventory`) aborts the handler into the
  express error middleware (a 500 response), keeping the state changes
  already applied.  Steps whose errors the code ignores (supabase results
  whose `error` field is never read, `publishEvent` which catches
  internally) are modelled as fallible but non-aborting.
* Byte strings are `List Nat`; the HMAC-SHA256 function is an abstract
  parameter (the handlers only compare its output for equality, so every
  theorem is universally quantified over it).  Hex encoding of signatures
  is abstracted away: signatures are compared at the byte level, exactly
  what `Buffer.from(·, "hex")` + `crypto.timingSafeEqual` do.
* Money amounts are rationals (`ℚ`), mirroring JavaScript numbers in the
  exact range the code exercises.
-/

namespace Saga

/-! ## Inventory Ledger

The inventory-service endpoints call the storage procedures
`reserve_inventory`, `release_inventory` and `deduct_inventory` via
`supabase.rpc` (src/apps/inventory-service/src/controllers/inventory.controller.ts,
src/unnamed/part_006).  The SQL bodies of those procedures are not part of
the repository snapshot, so they are modelled from the spec below. -/

/-- An inventory row: `stock_quantity` and `reserved_quantity`
(src/Docs/05-database/database-schema.md: both integers, both ≥ 0). -/
structure InventoryRecord where
  stock : Int
  reserved : Int
deriving Repr, DecidableEq

/-- Modelled from the spec: the SQL body of the `reserve_inventory`
procedure is not in the repository.  Spec §4.1: "for each item, atomically
verify `reserved_quantity + requested ≤ stock_quantity` and increment
`reserved_quantity` in one storage-level transaction"; failure of the check
is reported as an error to the caller.  Returns the new row and whether the
reservation succeeded. -/
def reserve_inventory (r : InventoryRecord) (q : Nat) : InventoryRecord × Bool :=
  if r.reserved + q ≤ r.stock then
    ({ r with reserved := r.reserved + q }, true)
  else
    (r, false)

/-- Modelled from the spec: the SQL body of the `release_inventory`
procedure is not in the repository.  Spec §4.1: "decrements
`reserved_quantity` by the given amounts ... treated as a floor-clamped
decrement, never negative". -/
def release_inventory (r : InventoryRecord) (q : Nat) : InventoryRecord :=
  { r with reserved := max 0 (r.reserved - q) }

/-- Modelled from the spec: the SQL body of the `deduct_inventory`
procedure is not in the repository.  Spec §4.1: "`stock_quantity -= qty;
reserved_quantity -= qty`", under the schema rules `stock_quantity ≥ 0`
and `reserved_quantity ≥ 0` (src/Docs/05-database/database-schema.md),
so both decrements are floor-clamped at zero. -/
def deduct_inventory (r : InventoryRecord) (q : Nat) : InventoryRecord :=
  { stock := max 0 (r.stock - q), reserved := max 0 (r.reserved - q) }

/-- One ledger operation, as offered by the inventory-service endpoints. -/
inductive LedgerOp
  | reserve (q : Nat)
  | release (q : Nat)
  | deduct (q : Nat)
deriving Repr, DecidableEq

/-- Apply one ledger operation to a row (dropping the reserve result flag). -/
def applyOp (r : InventoryRecord) : LedgerOp → InventoryRecord
  | .reserve q => (reserve_inventory r q).1
  | .release q => release_inventory r q
  | .deduct q => deduct_inventory r q

/-- Run a sequence of ledger operations left to right. -/
def runOps (r : InventoryRecord) (ops : List LedgerOp) : InventoryRecord :=
  ops.foldl applyOp r

/-- The InventoryRecord invariant of spec §3:
`0 ≤ reserved_quantity ≤ stock_quantity`. -/
def invariantOk (r : InventoryRecord) : Prop :=
  0 ≤ r.reserved ∧ r.reserved ≤ r.stock

instance (r : InventoryRecord) : Decidable (invariantOk r) := by
  unfold invariantOk; infer_instance

/-! ## Shared data model

One state structure covers the tables and infrastructure the saga touches:
`products`, `inventory`, `orders`, `order_items`, `payments`, the redis
idempotency keys and the event streams.  Request trace ids (`requestId`)
are correlation metadata only and are omitted from the event payloads. -/

/-- A catalog row, as selected by the order-service
(`select("id, name, price, discount_price") ... eq("is_active", true)`). -/
structure Product where
  id : String
  name : String
  price : ℚ
  discount_price : Option ℚ
  is_active : Bool
deriving Repr, DecidableEq

/-- One requested item of an order: `{productId, quantity}`. -/
structure RequestItem where
  productId : String
  quantity : Nat
deriving Repr, DecidableEq

/-- A row of the `orders` table (the columns the saga reads or writes). -/
structure OrderRow where
  id : String
  user_id : String
  address_id : String
  status : String
  total_amount : ℚ
  razorpay_order_id : Option String
  razorpay_payment_id : Option String
deriving Repr, DecidableEq

/-- A row of the `order_items` table. -/
structure OrderItemRow where
  order_id : String
  product_id : String
  product_name : String
  quantity : Nat
  unit_price : ℚ
  total_price : ℚ
deriving Repr, DecidableEq

/-- A row of the `payments` table, as inserted by the webhook handler. -/
structure PaymentRow where
  order_id : String
  razorpay_payment_id : String
  amount : ℚ
  currency : String
  status : String
deriving Repr, DecidableEq

/-- A domain event as appended to the redis streams by `publishEvent`
(src/packages/shared-utils/src/index.ts). -/
inductive DomainEvent
  | orderCreated (orderId userId : String) (totalAmount : ℚ)
  | paymentCaptured (orderId paymentId : String)
  | paymentFailed (orderId : String)
deriving Repr, DecidableEq

/-- The state visible to the saga: database tables, inventory rows (as a
total map from product id), redis idempotency keys and the published
event log. -/
structure SystemState where
  products : List Product
  inventory : String → InventoryRecord
  orders : List OrderRow
  orderItems : List OrderItemRow
  payments : List PaymentRow
  idemKeys : List String
  events : List DomainEvent

/-- Point update of the inventory map. -/
def setInv (inv : String → InventoryRecord) (pid : String)
    (r : InventoryRecord) : String → InventoryRecord :=
  fun x => if x = pid then r else inv x

/-- The reserve loop of `POST /v1/inventory/reserve`
(src/apps/inventory-service/src/controllers/inventory.controller.ts,
lines 256-270): every item is attempted in order — the loop does not stop
at the first failure — and the response is a success only when every item
reserved.  Returns the inventory left by the loop and the success flag
(`true` iff the endpoint answers 2xx, i.e. no item failed). -/
def reserveItems :
    (String → InventoryRecord) → List RequestItem → (String → InventoryRecord) × Bool
  | inv, [] => (inv, true)
  | inv, it :: rest =>
    let step := reserve_inventory (inv it.productId) it.quantity
    let res := reserveItems (setInv inv it.productId step.1) rest
    (res.1, step.2 && res.2)

/-- The release loop of `POST /v1/inventory/release` (same controller):
best-effort, per item, no failure reporting. -/
def releaseItems (inv : String → InventoryRecord)
    (items : List RequestItem) : String → InventoryRecord :=
  items.foldl
    (fun acc it => setInv acc it.productId
      (release_inventory (acc it.productId) it.quantity)) inv

/-- The deduct loop of `POST /v1/inventory/deduct` (same controller). -/
def deductItems (inv : String → InventoryRecord)
    (items : List RequestItem) : String → InventoryRecord :=
  items.foldl
    (fun acc it => setInv acc it.productId
      (deduct_inventory (acc it.productId) it.quantity)) inv

/-- Total quantity requested for one product id across an item list. -/
def sumQ (pid : String) (items : List RequestItem) : Nat :=
  ((items.filter (fun it => it.productId == pid)).map (fun it => it.quantity)).sum

/-! ## Order Coordinator — `POST /v1/orders`

src/apps/order-service/src/index.ts, lines 279-443.  The request body is
`{items, addressId}`: the client supplies product ids and quantities only —
no client-side price or total appears anywhere in the handler, so the
embedding's request type has no price field either. -/

/-- The `POST /v1/orders` request, with the gateway-attached user id. -/
structure OrderReq where
  userId : Option String
  addressId : String
  items : List RequestItem
deriving Repr, DecidableEq

/-- Which fallible steps of the order creation fail in a given run.
`orderInsertFails` is the checked insert of the order row;
`itemsInsertFails` is the `order_items` insert whose result the code
ignores; `eventPublishFails` is an `xadd` failure, caught inside
`publishEvent`. -/
structure OrderFaults where
  orderInsertFails : Bool
  itemsInsertFails : Bool
  eventPublishFails : Bool
deriving Repr, DecidableEq

/-- The possible responses of `POST /v1/orders`. -/
inductive OrderResp
  | unauthorized          -- 401, no x-user-id
  | validationError       -- 400, items/addressId missing
  | invalidProducts       -- 400 INVALID_PRODUCTS
  | insufficientStock     -- 409 INSUFFICIENT_STOCK
  | invalidProductMissing -- 400 INVALID_PRODUCT (in-loop lookup miss)
  | createFailed          -- 500 CREATE_FAILED
  | created (o : OrderRow) -- 201
deriving Repr, DecidableEq

/-- The price-snapshot query: products that are active and whose id occurs
in the requested ids (`.in("id", productIds).eq("is_active", true)`). -/
def activeProducts (ps : List Product) (ids : List String) : List Product :=
  ps.filter (fun p => p.is_active && ids.contains p.id)

/-- The totals loop (order-service lines 353-389): for each item look the
product up in the snapshot, take `discount_price ?? price`, accumulate
`price * quantity` and build the order-item insert.  `none` models the
in-loop `INVALID_PRODUCT` early return.  Order-item rows carry an empty
`order_id`, filled at insert time. -/
def computeOrderItems (ps : List Product) :
    List RequestItem → Option (ℚ × List OrderItemRow)
  | [] => some (0, [])
  | it :: rest =>
    match ps.find? (fun p => p.id == it.productId) with
    | none => none
    | some p =>
      let price := p.discount_price.getD p.price
      match computeOrderItems ps rest with
      | none => none
      | some (t, rows) =>
        some (price * (it.quantity : ℚ) + t,
          ⟨"", it.productId, p.name, it.quantity, price,
            price * (it.quantity : ℚ)⟩ :: rows)

/-- The server-side price of a product id in a snapshot:
`discount_price` when present, else `price` (0 when the id is absent —
a case the handler never persists). -/
def serverPrice (ps : List Product) (pid : String) : ℚ :=
  match ps.find? (fun p => p.id == pid) with
  | some p => p.discount_price.getD p.price
  | none => 0

/-- `POST /v1/orders` (order-service lines 279-443).  `newOrderId` is the
id the database assigns to the inserted row.  Steps, in source order:
user check, body validation, price snapshot, the inventory-service
reserve call, totals, order-row insert (checked; on failure release all
items and fail CREATE_FAILED), order-items insert (result ignored),
`ORDER_CREATED` publish (non-throwing), 201. -/
def createOrder (st : SystemState) (f : OrderFaults) (newOrderId : String)
    (req : OrderReq) : SystemState × OrderResp :=
  match req.userId with
  | none => (st, .unauthorized)
  | some uid =>
    if req.items.isEmpty || req.addressId == "" then (st, .validationError)
    else
      let ids := req.items.map (fun it => it.productId)
      let products := activeProducts st.products ids
      if products.length ≠ req.items.length then (st, .invalidProducts)
      else
        let rr := reserveItems st.inventory req.items
        let st1 := { st with inventory := rr.1 }
        if rr.2 then
          match computeOrderItems products req.items with
          | none => (st1, .invalidProductMissing)
          | some (total, drafts) =>
            if f.orderInsertFails then
              ({ st1 with inventory := releaseItems st1.inventory req.items },
                .createFailed)
            else
              let order : OrderRow :=
                ⟨newOrderId, uid, req.addressId, "pending", total, none, none⟩
              let st2 := { st1 with orders := st1.orders ++ [order] }
              let rows := drafts.map (fun d => { d with order_id := newOrderId })
              let st3 :=
                if f.itemsInsertFails then st2
                else { st2 with orderItems := st2.orderItems ++ rows }
              let ev : DomainEvent := .orderCreated newOrderId uid total
              let st4 :=
                if f.eventPublishFails then st3
                else { st3 with events := st3.events ++ [ev] }
              (st4, .created order)
        else (st1, .insufficientStock)

/-! ## Payment Gateway Adapter — `POST /v1/webhooks/payment`

src/apps/payment-service/src/index.ts, lines 191-328.  Signature bytes and
the HMAC digest are compared at the byte level (`Buffer.from(·, "hex")` +
length check + `crypto.timingSafeEqual` amount to equality of the decoded
byte strings); the HMAC-SHA256 function itself is an abstract parameter,
as is the JSON parse of the raw body (`none` = a parse or field-access
exception, which lands in the error middleware). -/

/-- The parsed webhook payload:
`{event, payload.payment.entity: {id, order_id, amount}}`. -/
structure WebhookPayload where
  event : String
  paymentId : String
  orderId : String
  amount : ℚ
deriving Repr, DecidableEq

/-- A webhook request: raw body bytes and the optional decoded signature
header. -/
structure WebhookReq where
  rawBody : List Nat
  signature : Option (List Nat)
deriving Repr, DecidableEq

/-- Which fallible downstream steps fail in a given webhook run.
`inventoryCallThrows` models the `fetch` inside `callInventory` rejecting
(network error) — the only downstream step that can throw into the
handler's catch; the supabase update/insert errors are returned as values
the code never reads, and `publishEvent` catches internally. -/
structure PayFaults where
  inventoryCallThrows : Bool
  orderUpdateFails : Bool
  paymentInsertFails : Bool
  eventPublishFails : Bool
deriving Repr, DecidableEq

/-- The possible webhook responses. -/
inductive WebhookResp
  | missingSignature  -- 400 {error: "Missing signature"}
  | invalidSignature  -- 400 {error: "Invalid signature"}
  | alreadyProcessed  -- 200 {status: "already_processed"}
  | processed         -- 200 {status: "processed"}
  | serverError       -- 500 via the error middleware (a step threw)
deriving Repr, DecidableEq

/-- `.eq("razorpay_order_id", payment.order_id).single()`. -/
def findOrderByRzpId (orders : List OrderRow) (rzp : String) : Option OrderRow :=
  orders.find? (fun o => o.razorpay_order_id == some rzp)

/-- The `order_items` join rows of an order, as item list. -/
def itemsOfOrder (st : SystemState) (oid : String) : List RequestItem :=
  (st.orderItems.filter (fun r => r.order_id == oid)).map
    (fun r => ⟨r.product_id, r.quantity⟩)

/-- `update({status: "confirmed", razorpay_payment_id}).eq("id", oid)`. -/
def setOrderConfirmed (orders : List OrderRow) (oid pid : String) : List OrderRow :=
  orders.map (fun o =>
    if o.id = oid then
      { o with status := "confirmed", razorpay_payment_id := some pid }
    else o)

/-- `update({status: "failed"}).eq("id", oid)`. -/
def setOrderFailed (orders : List OrderRow) (oid : String) : List OrderRow :=
  orders.map (fun o => if o.id = oid then { o with status := "failed" } else o)

/-- The `payment.captured` branch (payment-service lines 246-288), run
after the idempotency key was set and the order located: update the order
(error ignored), insert the payment row (error ignored), call inventory
deduct (may throw → 500 with the earlier writes kept and no event), then
publish `PAYMENT_CAPTURED` (failure swallowed).  `items` is the
`order_items` join fetched together with the order. -/
def capturedEffects (st : SystemState) (f : PayFaults) (o : OrderRow)
    (paymentId : String) (amount : ℚ) : SystemState × WebhookResp :=
  let items := itemsOfOrder st o.id
  let st1 :=
    if f.orderUpdateFails then st
    else { st with orders := setOrderConfirmed st.orders o.id paymentId }
  let st2 :=
    if f.paymentInsertFails then st1
    else { st1 with payments := st1.payments ++
      [⟨o.id, paymentId, amount / 100, "INR", "captured"⟩] }
  if f.inventoryCallThrows then (st2, .serverError)
  else
    let st3 := { st2 with inventory := deductItems st2.inventory items }
    let st4 :=
      if f.eventPublishFails then st3
      else { st3 with events := st3.events ++ [.paymentCaptured o.id paymentId] }
    (st4, .processed)

/-- The `payment.failed` branch (payment-service lines 289-320): set the
order failed (error ignored), call inventory release (may throw), publish
`PAYMENT_FAILED`. -/
def failedEffects (st : SystemState) (f : PayFaults) (o : OrderRow) :
    SystemState × WebhookResp :=
  let items := itemsOfOrder st o.id
  let st1 :=
    if f.orderUpdateFails then st
    else { st with orders := setOrderFailed st.orders o.id }
  if f.inventoryCallThrows then (st1, .serverError)
  else
    let st2 := { st1 with inventory := releaseItems st1.inventory items }
    let st3 :=
      if f.eventPublishFails then st2
      else { st2 with events := st2.events ++ [.paymentFailed o.id] }
    (st3, .processed)

/-- `POST /v1/webhooks/payment` (payment-service lines 191-328).
`hmac` is HMAC-SHA256 under the shared secret, as bytes of the raw body ↦
bytes of the digest; `parse` is the JSON parse of the raw body.  Source
order: signature header check, HMAC comparison, parse, atomic
create-if-absent of `payment:webhook:<paymentId>` (`SET NX EX 86400`),
then the event branch; unknown event types fall through to 200. -/
def handleWebhook (hmac : List Nat → List Nat)
    (parse : List Nat → Option WebhookPayload)
    (st : SystemState) (f : PayFaults) (req : WebhookReq) :
    SystemState × WebhookResp :=
  match req.signature with
  | none => (st, .missingSignature)
  | some sig =>
    if sig = hmac req.rawBody then
      match parse req.rawBody with
      | none => (st, .serverError)
      | some payload =>
        let key := "payment:webhook:" ++ payload.paymentId
        if key ∈ st.idemKeys then (st, .alreadyProcessed)
        else
          let st1 := { st with idemKeys := st.idemKeys ++ [key] }
          if payload.event = "payment.captured" then
            match findOrderByRzpId st1.orders payload.orderId with
            | none => (st1, .processed)
            | some o => capturedEffects st1 f o payload.paymentId payload.amount
          else if payload.event = "payment.failed" then
            match findOrderByRzpId st1.orders payload.orderId with
            | none => (st1, .processed)
            | some o => failedEffects st1 f o
          else (st1, .processed)
    else (st, .invalidSignature)

/-! ## Event Consumer — notification worker loop

src/unnamed/part_011 `startWorker` (and the identical inner loop of
`consume`, src/unnamed/part_009 lines 314-335): per entry, try the handler
then `xack`; a per-entry exception is logged and the entry is left
un-acknowledged, and the loop continues with the next entry. -/

/-- One delivered stream entry. -/
structure LogEntry where
  id : Nat
  event : DomainEvent
deriving Repr, DecidableEq

/-- The observable outcome of one batch iteration: which entries' side
effects completed, which were acknowledged, and which failures were
logged. -/
structure ConsumerState where
  handled : List Nat
  acked : List Nat
  failedLog : List Nat
deriving Repr, DecidableEq

/-- One entry of the inner loop: `try { await handleEvent(...); await
redis.xack(...) } catch { log }`.  `fails e` says the handler throws on
entry `e`. -/
def processEntry (fails : LogEntry → Bool) (s : ConsumerState)
    (e : LogEntry) : ConsumerState :=
  if fails e then { s with failedLog := s.failedLog ++ [e.id] }
  else { s with handled := s.handled ++ [e.id], acked := s.acked ++ [e.id] }

/-- The `for (const [id, fields] of entries)` loop over one delivered
batch. -/
def processBatch (fails : LogEntry → Bool) (s : ConsumerState)
    (entries : List LogEntry) : ConsumerState :=
  entries.foldl (processEntry fails) s

/-! ## Concrete fixtures

Small concrete states used to evaluate the handlers on explicit inputs
(scenario-style witnesses and counterexamples). -/

/-- The order row carried by a 201 response, when there is one. -/
def createdOrder : OrderResp → OrderRow
  | .created o => o
  | _ => ⟨"", "", "", "", 0, none, none⟩

def prodA : Product := ⟨"A", "Ashwagandha", 100, none, true⟩

def prodB : Product := ⟨"B", "Brahmi", 50, none, true⟩

/-- Product A has 10 in stock, nothing reserved; B has no stock. -/
def invDemo : String → InventoryRecord := fun pid =>
  if pid = "A" then ⟨10, 0⟩ else ⟨0, 0⟩

def stDemo : SystemState := ⟨[prodA, prodB], invDemo, [], [], [], [], []⟩

def noOrderFaults : OrderFaults := ⟨false, false, false⟩

def itemsInsFaults : OrderFaults := ⟨false, true, false⟩

def orderInsFaults : OrderFaults := ⟨true, false, false⟩

/-- Two items: A is in stock, B is not. -/
def reqAB : OrderReq := ⟨some "u1", "addr1", [⟨"A", 1⟩, ⟨"B", 1⟩]⟩

/-- One item: 2 units of A. -/
def reqA2 : OrderReq := ⟨some "u1", "addr1", [⟨"A", 2⟩]⟩

/-- A concrete stand-in for HMAC-SHA256 under the shared secret (the
handlers only compare its output, so any function exercises them). -/
def hmacDemo : List Nat → List Nat := fun _ => [222, 173, 190, 239]

def payloadCaptured : WebhookPayload := ⟨"payment.captured", "pay1", "rz1", 20000⟩

def parseCaptured : List Nat → Option WebhookPayload := fun _ => some payloadCaptured

/-- A captured event whose provider order id matches no stored order. -/
def payloadLost : WebhookPayload := ⟨"payment.captured", "payX", "rzX", 500⟩

def parseLost : List Nat → Option WebhookPayload := fun _ => some payloadLost

/-- A correctly signed webhook request. -/
def reqHook : WebhookReq := ⟨[1, 2, 3], some [222, 173, 190, 239]⟩

/-- The same raw body with a wrong signature. -/
def reqBadSig : WebhookReq := ⟨[1, 2, 3], some [0, 1]⟩

def orderO1 : OrderRow := ⟨"o1", "u1", "addr1", "pending", 200, some "rz1", none⟩

def itemO1 : OrderItemRow := ⟨"o1", "A", "Ashwagandha", 2, 100, 200⟩

def invHook : String → InventoryRecord := fun pid =>
  if pid = "A" then ⟨10, 2⟩ else ⟨0, 0⟩

/-- A pending order `o1` (provider order `rz1`, 2 units of A reserved),
webhook not yet delivered. -/
def stHook : SystemState := ⟨[prodA, prodB], invHook, [orderO1], [itemO1], [], [], []⟩

/-- The same state after a first delivery set the idempotency key. -/
def stHookDone : SystemState :=
  { stHook with idemKeys := ["payment:webhook:pay1"] }

def noPayFaults : PayFaults := ⟨false, false, false, false⟩

/-- The inventory deduct call rejects (network error). -/
def throwFaults : PayFaults := ⟨true, false, false, false⟩

/-- The supabase order update returns an error value (which the code
ignores). -/
def updateFailFaults : PayFaults := ⟨false, true, false, false⟩

/-! ## Invariant preservation of the ledger operations -/

theorem reserve_preserves_invariant (r : InventoryRecord) (q : Nat)
    (h : invariantOk r) : invariantOk (reserve_inventory r q).1 := by
  obtain ⟨h0, h1⟩ := h
  unfold reserve_inventory
  by_cases hc : r.reserved + q ≤ r.stock
  · simp only [hc, if_pos]
    exact ⟨by positivity, hc⟩
  · simp only [hc, if_neg, not_false_iff]
    exact ⟨h0, h1⟩

theorem release_preserves_invariant (r : InventoryRecord) (q : Nat)
    (h : invariantOk r) : invariantOk (release_inventory r q) := by
  obtain ⟨h0, h1⟩ := h
  refine ⟨le_max_left _ _, ?_⟩
  simp only [release_inventory, max_le_iff]
  constructor
  · exact le_trans h0 h1
  · exact le_trans (sub_le_self _ (by positivity)) h1

theorem deduct_preserves_invariant (r : InventoryRecord) (q : Nat)
    (h : invariantOk r) : invariantOk (deduct_inventory r q) := by
  obtain ⟨_, h1⟩ := h
  refine ⟨le_max_left _ _, ?_⟩
  simp only [deduct_inventory]
  exact max_le_max (le_refl 0) (sub_le_sub_right h1 _)

theorem applyOp_preserves_invariant (r : InventoryRecord) (op : LedgerOp)
    (h : invariantOk r) : invariantOk (applyOp r op) := by
  cases op with
  | reserve q => exact reserve_preserves_invariant r q h
  | release q => exact release_preserves_invariant r q h
  | deduct q => exact deduct_preserves_invariant r q h

theorem applyOp_stock_le (r : InventoryRecord) (op : LedgerOp)
    (h : invariantOk r) : (applyOp r op).stock ≤ r.stock := by
  cases op with
  | reserve q =>
      unfold applyOp reserve_inventory
      by_cases hc : r.reserved + q ≤ r.stock <;> simp [hc]
  | release q => simp [applyOp, release_inventory]
  | deduct q =>
      simp only [applyOp, deduct_inventory, max_le_iff]
      exact ⟨le_trans h.1 h.2, sub_le_self _ (by positivity)⟩

theorem runOps_preserves_invariant (r : InventoryRecord) (ops : List LedgerOp)
    (h : invariantOk r) : invariantOk (runOps r ops) := by
  induction ops generalizing r with
  | nil => exact h
  | cons op ops ih =>
      exact ih (applyOp r op) (applyOp_preserves_invariant r op h)

theorem runOps_stock_le (r : InventoryRecord) (ops : List LedgerOp)
    (h : invariantOk r) : (runOps r ops).stock ≤ r.stock := by
  induction ops generalizing r with
  | nil => exact le_refl _
  | cons op ops ih =>
      exact le_trans (ih (applyOp r op) (applyOp_preserves_invariant r op h))
        (applyOp_stock_le r op h)

/-! ## Lemmas about the ledger loops -/

theorem reserve_inventory_snd (r : InventoryRecord) (q : Nat) :
    (reserve_inventory r q).2 = true ↔ r.reserved + q ≤ r.stock := by
  unfold reserve_inventory
  split <;> simp_all

theorem reserve_inventory_fst_of_true (r : InventoryRecord) (q : Nat)
    (h : (reserve_inventory r q).2 = true) :
    (reserve_inventory r q).1 = ⟨r.stock, r.reserved + q⟩ := by
  unfold reserve_inventory at h ⊢
  split at h <;> simp_all

theorem sumQ_nil (pid : String) : sumQ pid [] = 0 := rfl

theorem sumQ_cons (pid : String) (it : RequestItem) (rest : List RequestItem) :
    sumQ pid (it :: rest) =
      (if it.productId = pid then it.quantity else 0) + sumQ pid rest := by
  simp only [sumQ, List.filter_cons]
  by_cases h : it.productId = pid <;> simp [h]

theorem setInv_same (inv : String → InventoryRecord) (pid : String)
    (r : InventoryRecord) : setInv inv pid r pid = r := by
  simp [setInv]

theorem setInv_other (inv : String → InventoryRecord) (pid x : String)
    (r : InventoryRecord) (h : x ≠ pid) : setInv inv pid r x = inv x := by
  simp [setInv, h]

/-- When the whole reserve loop succeeds, each product's row has kept its
stock and gained the total requested quantity on `reserved`. -/
theorem reserveItems_apply (items : List RequestItem)
    (inv : String → InventoryRecord) (pid : String)
    (h : (reserveItems inv items).2 = true) :
    (reserveItems inv items).1 pid =
      ⟨(inv pid).stock, (inv pid).reserved + sumQ pid items⟩ := by
  induction items generalizing inv with
  | nil => simp [reserveItems, sumQ_nil]
  | cons it rest ih =>
      simp only [reserveItems, Bool.and_eq_true] at h
      obtain ⟨hstep, hrest⟩ := h
      have hfst := reserve_inventory_fst_of_true _ _ hstep
      have := ih (setInv inv it.productId (reserve_inventory (inv it.productId) it.quantity).1) hrest
      simp only [reserveItems]
      rw [this, sumQ_cons]
      by_cases hpid : it.productId = pid
      · subst hpid
        rw [setInv_same, hfst]
        simp only [if_pos rfl, InventoryRecord.mk.injEq]
        refine ⟨trivial, ?_⟩
        push_cast
        ring
      · rw [setInv_other _ _ _ _ (Ne.symm hpid)]
        simp [hpid]

/-- The release loop, at a product whose reservation covers the total
released quantity: a plain decrement (the floor clamp never fires). -/
theorem releaseItems_apply (items : List RequestItem)
    (inv : String → InventoryRecord) (pid : String)
    (h : (sumQ pid items : Int) ≤ (inv pid).reserved)
    (h0 : 0 ≤ (inv pid).reserved) :
    releaseItems inv items pid =
      ⟨(inv pid).stock, (inv pid).reserved - sumQ pid items⟩ := by
  induction items generalizing inv with
  | nil => simp [releaseItems, sumQ_nil]
  | cons it rest ih =>
      simp only [releaseItems, List.foldl_cons] at ih ⊢
      rw [sumQ_cons] at h
      by_cases hpid : it.productId = pid
      · subst hpid
        simp only [if_pos rfl] at h
        have hq : (it.quantity : Int) ≤ (inv it.productId).reserved := by
          push_cast at h; omega
        have hmax : max 0 ((inv it.productId).reserved - it.quantity) =
            (inv it.productId).reserved - it.quantity := by omega
        rw [ih (setInv inv it.productId
            (release_inventory (inv it.productId) it.quantity))]
        · rw [setInv_same]
          simp only [release_inventory, hmax]
          rw [sumQ_cons]
          simp only [if_pos rfl, InventoryRecord.mk.injEq]
          refine ⟨trivial, ?_⟩
          push_cast
          ring
        · rw [setInv_same]
          simp only [release_inventory, hmax]
          push_cast at h ⊢
          omega
        · rw [setInv_same]
          simp only [release_inventory, hmax]
          push_cast at h ⊢
          omega
      · simp only [if_neg hpid, Nat.zero_add] at h
        rw [ih (setInv inv it.productId
            (release_inventory (inv it.productId) it.quantity))]
        · rw [setInv_other _ _ _ _ (Ne.symm hpid), sumQ_cons]
          simp [hpid]
        · rw [setInv_other _ _ _ _ (Ne.symm hpid)]
          exact h
        · rw [setInv_other _ _ _ _ (Ne.symm hpid)]
          exact h0

/-- The deduct loop, at a product whose reservation and stock cover the
total deducted quantity: both counters drop by exactly that quantity. -/
theorem deductItems_apply (items : List RequestItem)
    (inv : String → InventoryRecord) (pid : String)
    (h : (sumQ pid items : Int) ≤ (inv pid).reserved)
    (hs : (sumQ pid items : Int) ≤ (inv pid).stock) :
    deductItems inv items pid =
      ⟨(inv pid).stock - sumQ pid items,
        (inv pid).reserved - sumQ pid items⟩ := by
  induction items generalizing inv with
  | nil => simp [deductItems, sumQ_nil]
  | cons it rest ih =>
      simp only [deductItems, List.foldl_cons] at ih ⊢
      rw [sumQ_cons] at h hs
      by_cases hpid : it.productId = pid
      · subst hpid
        simp only [if_pos rfl] at h hs
        have hmax1 : max 0 ((inv it.productId).reserved - it.quantity) =
            (inv it.productId).reserved - it.quantity := by
          push_cast at h; omega
        have hmax2 : max 0 ((inv it.productId).stock - it.quantity) =
            (inv it.productId).stock - it.quantity := by
          push_cast at hs; omega
        rw [ih (setInv inv it.productId
            (deduct_inventory (inv it.productId) it.quantity))]
        · rw [setInv_same]
          simp only [deduct_inventory, hmax1, hmax2]
          rw [sumQ_cons]
          simp only [if_pos rfl, InventoryRecord.mk.injEq]
          push_cast
          constructor <;> ring
        · rw [setInv_same]
          simp only [deduct_inventory, hmax1]
          push_cast at h ⊢
          omega
        · rw [setInv_same]
          simp only [deduct_inventory, hmax2]
          push_cast at hs ⊢
          omega
      · simp only [if_neg hpid, Nat.zero_add] at h hs
        rw [ih (setInv inv it.productId
            (deduct_inventory (inv it.productId) it.quantity))]
        · rw [setInv_other _ _ _ _ (Ne.symm hpid), sumQ_cons]
          simp [hpid]
        · rw [setInv_other _ _ _ _ (Ne.symm hpid)]
          exact h
        · rw [setInv_other _ _ _ _ (Ne.symm hpid)]
          exact hs

/-! ## Lemmas about the Order Coordinator -/

/-- The total returned by the totals loop is the sum of server-side
prices times quantities. -/
theorem computeOrderItems_total (ps : List Product) (items : List RequestItem)
    (t : ℚ) (rows : List OrderItemRow)
    (h : computeOrderItems ps items = some (t, rows)) :
    t = (items.map (fun it =>
      serverPrice ps it.productId * (it.quantity : ℚ))).sum := by
  induction items generalizing t rows with
  | nil =>
      simp only [computeOrderItems, Option.some.injEq, Prod.mk.injEq] at h
      simp [← h.1]
  | cons it rest ih =>
      simp only [computeOrderItems] at h
      cases hf : ps.find? (fun p => p.id == it.productId) with
      | none => rw [hf] at h; simp at h
      | some p =>
          rw [hf] at h
          cases hc : computeOrderItems ps rest with
          | none => rw [hc] at h; simp at h
          | some tr =>
              rw [hc] at h
              obtain ⟨t', rows'⟩ := tr
              simp only [Option.some.injEq, Prod.mk.injEq] at h
              obtain ⟨ht, hrows⟩ := h
              subst ht
              rw [List.map_cons, List.sum_cons, ih t' rows' hc]
              simp [serverPrice, hf]

/-! ## Claim theorems: the Order Coordinator -/

/-- Claim C2 (modelled from the spec for the storage procedures):
starting from any inventory row satisfying the invariant, any sequence of
Reserve/Release/Deduct operations preserves `0 ≤ reserved ≤ stock`; the
outstanding reservation never exceeds the initial stock `S`; and a
Reserve succeeds exactly when `reserved + quantity ≤ stock`, in which case
it is a single check-and-increment of `reserved` leaving `stock`
unchanged. -/
theorem claim_C2 (r : InventoryRecord) (ops : List LedgerOp) (q : Nat)
    (h : invariantOk r) :
    invariantOk (runOps r ops) ∧
    (runOps r ops).reserved ≤ r.stock ∧
    ((reserve_inventory r q).2 = true ↔ r.reserved + q ≤ r.stock) ∧
    ((reserve_inventory r q).2 = true →
      (reserve_inventory r q).1 = ⟨r.stock, r.reserved + q⟩) := by
  refine ⟨runOps_preserves_invariant r ops h, ?_, reserve_inventory_snd r q,
    reserve_inventory_fst_of_true r q⟩
  exact le_trans (runOps_preserves_invariant r ops h).2 (runOps_stock_le r ops h)

/-- Witness for C2 at stock 5: reserve 3, release 1, deduct 2, with a
pending reserve of 3 whose success condition is checked concretely. -/
theorem claim_C2_witness :
    invariantOk (⟨5, 0⟩ : InventoryRecord) ∧
    (invariantOk (runOps ⟨5, 0⟩ [.reserve 3, .release 1, .deduct 2]) ∧
      (runOps (⟨5, 0⟩ : InventoryRecord)
        [.reserve 3, .release 1, .deduct 2]).reserved ≤ (5 : Int) ∧
      ((reserve_inventory ⟨5, 0⟩ 3).2 = true ↔ (0 : Int) + (3 : Nat) ≤ 5) ∧
      ((reserve_inventory ⟨5, 0⟩ 3).2 = true →
        (reserve_inventory (⟨5, 0⟩ : InventoryRecord) 3).1 = ⟨5, 0 + (3 : Nat)⟩)) :=
  ⟨by decide, claim_C2 ⟨5, 0⟩ [.reserve 3, .release 1, .deduct 2] 3 (by decide)⟩

/-- Claim C1 is false on the code: with product A in stock and B out of
stock, `POST /v1/orders` for one unit of each answers INSUFFICIENT_STOCK
while A's `reserved_quantity` stays at 1 — neither the order-service nor
the inventory-service reserve endpoint issues any Release, so the
pre-attempt value 0 is not restored. -/
theorem claim_C1_counterexample :
    (createOrder stDemo noOrderFaults "o1" reqAB).2 = .insufficientStock ∧
    stDemo.inventory "A" = ⟨10, 0⟩ ∧
    (createOrder stDemo noOrderFaults "o1" reqAB).1.inventory "A" = ⟨10, 1⟩ ∧
    (createOrder stDemo noOrderFaults "o1" reqAB).1.inventory "B" = ⟨0, 0⟩ := by
  decide

/-- Claim C1 amended: when the Reserve step fails on some item, the
coordinator returns INSUFFICIENT_STOCK *without* calling Release — the
resulting state is exactly the one left by the per-item reserve loop, in
which every item that passed its atomic check (the loop attempts all
items, even after a failure) remains reserved. -/
theorem claim_C1_amended (st : SystemState) (f : OrderFaults) (oid : String)
    (req : OrderReq) (uid : String)
    (hu : req.userId = some uid)
    (hne : req.items.isEmpty = false)
    (haddr : (req.addressId == "") = false)
    (hlen : (activeProducts st.products
      (req.items.map (fun it => it.productId))).length = req.items.length)
    (hres : (reserveItems st.inventory req.items).2 = false) :
    createOrder st f oid req =
      ({ st with inventory := (reserveItems st.inventory req.items).1 },
        .insufficientStock) := by
  simp only [createOrder, hu, hne, haddr, hlen, hres, Bool.or_self,
    Bool.false_eq_true, if_false, ne_eq, not_true_eq_false, Bool.or_false,
    if_true]

/-- Witness for the amended C1 at the concrete two-item request. -/
theorem claim_C1_amended_witness :
    createOrder stDemo noOrderFaults "o1" reqAB =
      ({ stDemo with inventory := (reserveItems stDemo.inventory reqAB.items).1 },
        .insufficientStock) :=
  claim_C1_amended stDemo noOrderFaults "o1" reqAB "u1" rfl (by decide)
    (by decide) (by decide) (by decide)

/-- Claim C6 is false as stated: when the `order_items` insert fails (its
result is never checked), the coordinator still answers 201 with the
order row persisted, no order-items rows, no Release issued, and the
reservation still held: not CREATE_FAILED and no restoration. -/
theorem claim_C6_counterexample :
    (createOrder stDemo itemsInsFaults "o1" reqA2).2 ≠ .createFailed ∧
    (createOrder stDemo itemsInsFaults "o1" reqA2).1.orderItems = [] ∧
    (createOrder stDemo itemsInsFaults "o1" reqA2).1.orders ≠ [] ∧
    stDemo.inventory "A" = ⟨10, 0⟩ ∧
    (createOrder stDemo itemsInsFaults "o1" reqA2).1.inventory "A" = ⟨10, 2⟩ := by
  decide

/-- Claim C6 amended: only a failure of the *order row* insert is treated
as persistence failure — then the coordinator releases all reserved items
and fails CREATE_FAILED, with every product's `reserved_quantity` back at
its pre-reservation value and no order, order-item or event persisted.
(A failed `order_items` insert is ignored, see the counterexample.) -/
theorem claim_C6_amended (st : SystemState) (f : OrderFaults) (oid : String)
    (req : OrderReq) (uid : String)
    (hu : req.userId = some uid)
    (hne : req.items.isEmpty = false)
    (haddr : (req.addressId == "") = false)
    (hlen : (activeProducts st.products
      (req.items.map (fun it => it.productId))).length = req.items.length)
    (hres : (reserveItems st.inventory req.items).2 = true)
    (hcomp : (computeOrderItems (activeProducts st.products
      (req.items.map (fun it => it.productId))) req.items).isSome = true)
    (hfail : f.orderInsertFails = true)
    (hinv : ∀ pid, 0 ≤ (st.inventory pid).reserved) :
    (createOrder st f oid req).2 = .createFailed ∧
    (∀ pid, (createOrder st f oid req).1.inventory pid = st.inventory pid) ∧
    (createOrder st f oid req).1.orders = st.orders ∧
    (createOrder st f oid req).1.orderItems = st.orderItems ∧
    (createOrder st f oid req).1.events = st.events := by
  obtain ⟨td, htd⟩ := Option.isSome_iff_exists.mp hcomp
  obtain ⟨total, drafts⟩ := td
  have hred : createOrder st f oid req =
      ({ st with inventory :=
          releaseItems (reserveItems st.inventory req.items).1 req.items },
        .createFailed) := by
    simp only [createOrder, hu, hne, haddr, hlen, hres, htd, hfail,
      Bool.or_self, Bool.false_eq_true, if_false, ne_eq, not_true_eq_false,
      if_true]
  rw [hred]
  refine ⟨rfl, ?_, rfl, rfl, rfl⟩
  intro pid
  show releaseItems (reserveItems st.inventory req.items).1 req.items pid =
    st.inventory pid
  have hr := reserveItems_apply req.items st.inventory pid hres
  have hrel := releaseItems_apply req.items
    (reserveItems st.inventory req.items).1 pid
    (by rw [hr]; have := hinv pid; push_cast; omega)
    (by rw [hr]; have := hinv pid; push_cast; omega)
  rw [hrel, hr]
  simp

/-- Witness for the amended C6: the order-row insert fails on the
concrete one-item request; CREATE_FAILED is returned and A's reservation
is back at 0. -/
theorem claim_C6_amended_witness :
    (createOrder stDemo orderInsFaults "o1" reqA2).2 = .createFailed ∧
    (∀ pid, (createOrder stDemo orderInsFaults "o1" reqA2).1.inventory pid =
      stDemo.inventory pid) ∧
    (createOrder stDemo orderInsFaults "o1" reqA2).1.orders = stDemo.orders ∧
    (createOrder stDemo orderInsFaults "o1" reqA2).1.orderItems =
      stDemo.orderItems ∧
    (createOrder stDemo orderInsFaults "o1" reqA2).1.events = stDemo.events :=
  claim_C6_amended stDemo orderInsFaults "o1" reqA2 "u1" rfl (by decide)
    (by decide) (by decide) (by decide) (by decide) rfl
    (by intro pid
        by_cases h : pid = "A" <;> simp [stDemo, invDemo, h])

/-- Claim C8: every successfully created order is persisted with
`total_amount` equal to the sum over the requested items of the
server-side price (discount price when present) times the quantity.  The
request type carries no client price or total at all, so no client input
can influence the result. -/
theorem claim_C8 (st : SystemState) (f : OrderFaults) (oid : String)
    (req : OrderReq) (st' : SystemState) (o : OrderRow)
    (h : createOrder st f oid req = (st', .created o)) :
    o ∈ st'.orders ∧
    o.total_amount = (req.items.map (fun it =>
      serverPrice (activeProducts st.products
        (req.items.map (fun i => i.productId))) it.productId *
          (it.quantity : ℚ))).sum := by
  simp only [createOrder] at h
  split at h
  · simp at h
  · split at h
    · simp at h
    · split at h
      · simp at h
      · split at h
        · split at h
          · simp at h
          · split at h
            · simp at h
            · rename_i t rows heq hins
              simp only [Prod.mk.injEq, OrderResp.created.injEq] at h
              obtain ⟨hst, ho⟩ := h
              subst ho
              subst hst
              constructor
              · by_cases h2 : f.itemsInsertFails <;>
                  by_cases h3 : f.eventPublishFails <;> simp [h2, h3]
              · exact computeOrderItems_total _ _ _ _ heq
        · simp at h

/-- Witness for C8: the concrete one-item order (2 units of A at price
100) is created and its persisted total equals the server-side sum. -/
theorem claim_C8_witness :
    createdOrder (createOrder stDemo noOrderFaults "o1" reqA2).2 ∈
      (createOrder stDemo noOrderFaults "o1" reqA2).1.orders ∧
    (createdOrder (createOrder stDemo noOrderFaults "o1" reqA2).2).total_amount =
      (reqA2.items.map (fun it =>
        serverPrice (activeProducts stDemo.products
          (reqA2.items.map (fun i => i.productId))) it.productId *
            (it.quantity : ℚ))).sum :=
  claim_C8 stDemo noOrderFaults "o1" reqA2
    (createOrder stDemo noOrderFaults "o1" reqA2).1
    (createdOrder (createOrder stDemo noOrderFaults "o1" reqA2).2) (by rfl)

/-! ## Lemmas about the webhook handler -/

/-- A validly signed, parseable webhook whose idempotency key is already
present answers 200 already_processed and leaves the state untouched. -/
theorem handleWebhook_already (hmac : List Nat → List Nat)
    (parse : List Nat → Option WebhookPayload) (st : SystemState)
    (f : PayFaults) (req : WebhookReq) (sig : List Nat)
    (payload : WebhookPayload)
    (hs : req.signature = some sig) (hv : sig = hmac req.rawBody)
    (hp : parse req.rawBody = some payload)
    (hk : ("payment:webhook:" ++ payload.paymentId) ∈ st.idemKeys) :
    handleWebhook hmac parse st f req = (st, .alreadyProcessed) := by
  subst hv
  simp only [handleWebhook, hs, hp, hk, if_true, eq_self_iff_true]

/-- Every row of `setOrderConfirmed os oid pid` that carries id `oid` has
status confirmed and the payment id recorded. -/
theorem setOrderConfirmed_spec (os : List OrderRow) (oid pid : String)
    (r : OrderRow) (hr : r ∈ setOrderConfirmed os oid pid) (hid : r.id = oid) :
    r.status = "confirmed" ∧ r.razorpay_payment_id = some pid := by
  simp only [setOrderConfirmed, List.mem_map] at hr
  obtain ⟨o', _, ho'⟩ := hr
  by_cases h : o'.id = oid
  · rw [if_pos h] at ho'
    subst ho'
    exact ⟨rfl, rfl⟩
  · rw [if_neg h] at ho'
    subst ho'
    exact absurd hid h

/-! ## Claim theorems: the Payment Gateway Adapter -/

/-- Claim C3: a validly-signed webhook delivered again after a first
delivery set the idempotency key `payment:webhook:<providerPaymentId>`
produces zero state changes and zero events — the returned state is the
input state — and answers the already-processed success response.  This
holds for every fault vector, every HMAC function and every payload. -/
theorem claim_C3 (hmac : List Nat → List Nat)
    (parse : List Nat → Option WebhookPayload) (st : SystemState)
    (f : PayFaults) (req : WebhookReq) (sig : List Nat)
    (payload : WebhookPayload)
    (hs : req.signature = some sig) (hv : sig = hmac req.rawBody)
    (hp : parse req.rawBody = some payload)
    (hk : ("payment:webhook:" ++ payload.paymentId) ∈ st.idemKeys) :
    handleWebhook hmac parse st f req = (st, .alreadyProcessed) :=
  handleWebhook_already hmac parse st f req sig payload hs hv hp hk

/-- Witness for C3: the concrete captured webhook replayed after the key
was set. -/
theorem claim_C3_witness :
    handleWebhook hmacDemo parseCaptured stHookDone noPayFaults reqHook =
      (stHookDone, .alreadyProcessed) :=
  claim_C3 hmacDemo parseCaptured stHookDone noPayFaults reqHook
    [222, 173, 190, 239] payloadCaptured rfl rfl rfl (by decide)

/-- Claim C5: a webhook without a signature header, or whose signature
bytes differ from the HMAC-SHA256 of the raw body, is rejected with 400
(missing or invalid signature), the state is returned untouched (no row
mutated, no idempotency key set, no event emitted), and the result does
not depend on the body parser at all — nothing is parsed. -/
theorem claim_C5 (hmac : List Nat → List Nat)
    (parse : List Nat → Option WebhookPayload) (st : SystemState)
    (f : PayFaults) (req : WebhookReq)
    (hbad : match req.signature with
      | none => True
      | some s => s ≠ hmac req.rawBody) :
    (handleWebhook hmac parse st f req).1 = st ∧
    ((handleWebhook hmac parse st f req).2 = .missingSignature ∨
      (handleWebhook hmac parse st f req).2 = .invalidSignature) ∧
    ∀ g, handleWebhook hmac parse st f req = handleWebhook hmac g st f req := by
  cases hsig : req.signature with
  | none => simp [handleWebhook, hsig]
  | some s =>
      rw [hsig] at hbad
      simp only at hbad
      simp [handleWebhook, hsig, hbad]

/-- Witness for C5 at a concrete wrongly-signed request. -/
theorem claim_C5_witness :
    (handleWebhook hmacDemo parseCaptured stHook noPayFaults reqBadSig).1 =
      stHook ∧
    ((handleWebhook hmacDemo parseCaptured stHook noPayFaults reqBadSig).2 =
        .missingSignature ∨
      (handleWebhook hmacDemo parseCaptured stHook noPayFaults reqBadSig).2 =
        .invalidSignature) ∧
    ∀ g, handleWebhook hmacDemo parseCaptured stHook noPayFaults reqBadSig =
      handleWebhook hmacDemo g stHook noPayFaults reqBadSig :=
  claim_C5 hmacDemo parseCaptured stHook noPayFaults reqBadSig
    (by decide : ([0, 1] : List Nat) ≠ hmacDemo reqBadSig.rawBody)

/-- Claim C4 is false as stated: on the concrete captured webhook with a
valid signature and a fresh idempotency key, a network rejection of the
inventory Deduct call propagates to the error middleware — the handler
answers 500, not 200, while the idempotency key stays set. -/
theorem claim_C4_counterexample :
    reqHook.signature = some (hmacDemo reqHook.rawBody) ∧
    "payment:webhook:pay1" ∉ stHook.idemKeys ∧
    (handleWebhook hmacDemo parseCaptured stHook throwFaults reqHook).2 =
      .serverError ∧
    "payment:webhook:pay1" ∈
      (handleWebhook hmacDemo parseCaptured stHook throwFaults reqHook).1.idemKeys := by
  decide

/-- Claim C4 amended: once the signature verifies, the payload parses and
the idempotency key is fresh, the handler answers 200 processed provided
no downstream step *throws*.  The supabase order update and payment
insert return error values the code never reads, and event publishing
catches internally — so those may all fail; only the inventory HTTP call
can throw, and `inventoryCallThrows = false` rules exactly that out. -/
theorem claim_C4_amended (hmac : List Nat → List Nat)
    (parse : List Nat → Option WebhookPayload) (st : SystemState)
    (f : PayFaults) (req : WebhookReq) (sig : List Nat)
    (payload : WebhookPayload)
    (hs : req.signature = some sig) (hv : sig = hmac req.rawBody)
    (hp : parse req.rawBody = some payload)
    (hk : ("payment:webhook:" ++ payload.paymentId) ∉ st.idemKeys)
    (hth : f.inventoryCallThrows = false) :
    (handleWebhook hmac parse st f req).2 = .processed := by
  subst hv
  simp only [handleWebhook, hs, hp, hk, eq_self_iff_true, if_true, if_false]
  by_cases hev : payload.event = "payment.captured"
  · simp only [hev, if_true, eq_self_iff_true]
    cases hor : findOrderByRzpId st.orders payload.orderId with
    | none => simp [hor]
    | some o => simp [hor, capturedEffects, hth]
  · simp only [hev, if_false]
    by_cases hev2 : payload.event = "payment.failed"
    · simp only [hev2, if_true, eq_self_iff_true]
      cases hor : findOrderByRzpId st.orders payload.orderId with
      | none => simp [hor]
      | some o => simp [hor, failedEffects, hth]
    · simp [hev, hev2]

/-- Witness for the amended C4: the order update fails (as an ignored
error value) yet the handler still answers 200 processed. -/
theorem claim_C4_amended_witness :
    (handleWebhook hmacDemo parseCaptured stHook updateFailFaults reqHook).2 =
      .processed :=
  claim_C4_amended hmacDemo parseCaptured stHook updateFailFaults reqHook
    [222, 173, 190, 239] payloadCaptured rfl rfl rfl (by decide) rfl

/-- Claim C7: a validly-signed, not-yet-processed `payment.captured`
webhook whose provider order id matches a stored order sets that order
confirmed with the payment id recorded, appends one captured Payment row,
applies inventory Deduct to exactly the order's `order_items` (dropping
`stock_quantity` by the ordered quantity and `reserved_quantity` back to
its pre-order baseline whenever the reservation and stock cover the
order, per the spec-modelled `deduct_inventory`), and appends exactly one
PAYMENT_CAPTURED event. -/
theorem claim_C7 (hmac : List Nat → List Nat)
    (parse : List Nat → Option WebhookPayload) (st : SystemState)
    (f : PayFaults) (req : WebhookReq) (sig : List Nat)
    (payload : WebhookPayload) (o : OrderRow)
    (hs : req.signature = some sig) (hv : sig = hmac req.rawBody)
    (hp : parse req.rawBody = some payload)
    (hev : payload.event = "payment.captured")
    (hk : ("payment:webhook:" ++ payload.paymentId) ∉ st.idemKeys)
    (hor : findOrderByRzpId st.orders payload.orderId = some o)
    (hf : f = ⟨false, false, false, false⟩) :
    (handleWebhook hmac parse st f req).2 = .processed ∧
    (handleWebhook hmac parse st f req).1.orders =
      setOrderConfirmed st.orders o.id payload.paymentId ∧
    (∀ r ∈ (handleWebhook hmac parse st f req).1.orders,
      r.id = o.id → r.status = "confirmed" ∧
        r.razorpay_payment_id = some payload.paymentId) ∧
    (handleWebhook hmac parse st f req).1.payments =
      st.payments ++
        [⟨o.id, payload.paymentId, payload.amount / 100, "INR", "captured"⟩] ∧
    (handleWebhook hmac parse st f req).1.events =
      st.events ++ [.paymentCaptured o.id payload.paymentId] ∧
    (∀ pid, (handleWebhook hmac parse st f req).1.inventory pid =
      deductItems st.inventory (itemsOfOrder st o.id) pid) ∧
    (∀ pid,
      (sumQ pid (itemsOfOrder st o.id) : Int) ≤ (st.inventory pid).reserved →
      (sumQ pid (itemsOfOrder st o.id) : Int) ≤ (st.inventory pid).stock →
      (handleWebhook hmac parse st f req).1.inventory pid =
        ⟨(st.inventory pid).stock - sumQ pid (itemsOfOrder st o.id),
          (st.inventory pid).reserved - sumQ pid (itemsOfOrder st o.id)⟩) := by
  subst hv hf
  have hred : handleWebhook hmac parse st ⟨false, false, false, false⟩ req =
      ({ products := st.products,
          inventory := deductItems st.inventory (itemsOfOrder st o.id),
          orders := setOrderConfirmed st.orders o.id payload.paymentId,
          orderItems := st.orderItems,
          payments := st.payments ++
            [⟨o.id, payload.paymentId, payload.amount / 100, "INR", "captured"⟩],
          idemKeys := st.idemKeys ++
            ["payment:webhook:" ++ payload.paymentId],
          events := st.events ++ [.paymentCaptured o.id payload.paymentId] },
        .processed) := by
    simp only [handleWebhook, hs, hp, hk, hev, hor, eq_self_iff_true, if_true,
      if_false, Bool.false_eq_true, capturedEffects, itemsOfOrder]
  rw [hred]
  refine ⟨rfl, rfl, ?_, rfl, rfl, fun pid => rfl, ?_⟩
  · intro r hr hid
    exact setOrderConfirmed_spec st.orders o.id payload.paymentId r hr hid
  · intro pid h1 h2
    exact deductItems_apply (itemsOfOrder st o.id) st.inventory pid h1 h2

/-- Witness for C7: the concrete pending order `o1` (2 units of A
reserved, A in stock 10/2) receives its captured webhook. -/
theorem claim_C7_witness :
    (handleWebhook hmacDemo parseCaptured stHook noPayFaults reqHook).2 =
      .processed ∧
    (handleWebhook hmacDemo parseCaptured stHook noPayFaults reqHook).1.orders =
      setOrderConfirmed stHook.orders orderO1.id payloadCaptured.paymentId ∧
    (∀ r ∈ (handleWebhook hmacDemo parseCaptured stHook noPayFaults
        reqHook).1.orders,
      r.id = orderO1.id → r.status = "confirmed" ∧
        r.razorpay_payment_id = some payloadCaptured.paymentId) ∧
    (handleWebhook hmacDemo parseCaptured stHook noPayFaults
        reqHook).1.payments =
      stHook.payments ++
        [⟨orderO1.id, payloadCaptured.paymentId, payloadCaptured.amount / 100,
          "INR", "captured"⟩] ∧
    (handleWebhook hmacDemo parseCaptured stHook noPayFaults reqHook).1.events =
      stHook.events ++
        [.paymentCaptured orderO1.id payloadCaptured.paymentId] ∧
    (∀ pid, (handleWebhook hmacDemo parseCaptured stHook noPayFaults
        reqHook).1.inventory pid =
      deductItems stHook.inventory (itemsOfOrder stHook orderO1.id) pid) ∧
    (∀ pid,
      (sumQ pid (itemsOfOrder stHook orderO1.id) : Int) ≤
        (stHook.inventory pid).reserved →
      (sumQ pid (itemsOfOrder stHook orderO1.id) : Int) ≤
        (stHook.inventory pid).stock →
      (handleWebhook hmacDemo parseCaptured stHook noPayFaults
          reqHook).1.inventory pid =
        ⟨(stHook.inventory pid).stock - sumQ pid (itemsOfOrder stHook orderO1.id),
          (stHook.inventory pid).reserved -
            sumQ pid (itemsOfOrder stHook orderO1.id)⟩) :=
  claim_C7 hmacDemo parseCaptured stHook noPayFaults reqHook
    [222, 173, 190, 239] payloadCaptured orderO1 rfl rfl rfl rfl (by decide)
    (by decide) rfl

/-- Claim C10: a validly-signed captured-or-failed webhook whose provider
order id matches no stored order still answers 200 processed and leaves
the idempotency key set, with no order, payment, inventory or event
change — the returned state differs from the input only in
`idemKeys` — and any later redelivery of the same request is answered
already_processed as a no-op, under every fault vector. -/
theorem claim_C10 (hmac : List Nat → List Nat)
    (parse : List Nat → Option WebhookPayload) (st : SystemState)
    (f : PayFaults) (req : WebhookReq) (sig : List Nat)
    (payload : WebhookPayload)
    (hs : req.signature = some sig) (hv : sig = hmac req.rawBody)
    (hp : parse req.rawBody = some payload)
    (hev : payload.event = "payment.captured" ∨
      payload.event = "payment.failed")
    (hk : ("payment:webhook:" ++ payload.paymentId) ∉ st.idemKeys)
    (hor : findOrderByRzpId st.orders payload.orderId = none) :
    handleWebhook hmac parse st f req =
      ({ st with idemKeys :=
          st.idemKeys ++ ["payment:webhook:" ++ payload.paymentId] },
        .processed) ∧
    ∀ g : PayFaults, handleWebhook hmac parse
        { st with idemKeys :=
          st.idemKeys ++ ["payment:webhook:" ++ payload.paymentId] } g req =
      ({ st with idemKeys :=
          st.idemKeys ++ ["payment:webhook:" ++ payload.paymentId] },
        .alreadyProcessed) := by
  constructor
  · subst hv
    simp only [handleWebhook, hs, hp, hk, eq_self_iff_true, if_true, if_false]
    rcases hev with hev | hev
    · simp [hev, hor]
    · have hev1 : ¬ payload.event = "payment.captured" := by
        rw [hev]; decide
      simp [hev1, hev, hor]
  · intro g
    exact handleWebhook_already hmac parse _ g req sig payload hs hv hp
      (by simp)

/-- Witness for C10: a captured webhook for unknown provider order `rzX`
against the concrete state, then its redelivery. -/
theorem claim_C10_witness :
    handleWebhook hmacDemo parseLost stHook noPayFaults reqHook =
      ({ stHook with idemKeys :=
          stHook.idemKeys ++ ["payment:webhook:" ++ payloadLost.paymentId] },
        .processed) ∧
    ∀ g : PayFaults, handleWebhook hmacDemo parseLost
        { stHook with idemKeys :=
          stHook.idemKeys ++ ["payment:webhook:" ++ payloadLost.paymentId] }
        g reqHook =
      ({ stHook with idemKeys :=
          stHook.idemKeys ++ ["payment:webhook:" ++ payloadLost.paymentId] },
        .alreadyProcessed) :=
  claim_C10 hmacDemo parseLost stHook noPayFaults reqHook
    [222, 173, 190, 239] payloadLost rfl rfl rfl (Or.inl rfl) (by decide)
    (by decide)

/-! ## Claim theorems: the Event Consumer -/

/-- Claim C9: over one delivered batch, the acknowledged entries are
exactly those whose handler did not throw, in order; the same entries are
the ones whose side effect completed; throwing entries are logged and
left un-acknowledged; and an earlier failure never stops later entries of
the batch from being processed and acknowledged (they appear in the
filtered lists regardless of earlier failures). -/
theorem claim_C9 (fails : LogEntry → Bool) (s : ConsumerState)
    (entries : List LogEntry) :
    (processBatch fails s entries).acked =
      s.acked ++ (entries.filter (fun e => !fails e)).map (fun e => e.id) ∧
    (processBatch fails s entries).handled =
      s.handled ++ (entries.filter (fun e => !fails e)).map (fun e => e.id) ∧
    (processBatch fails s entries).failedLog =
      s.failedLog ++ (entries.filter (fun e => fails e)).map (fun e => e.id) := by
  induction entries generalizing s with
  | nil => simp [processBatch]
  | cons e rest ih =>
      simp only [processBatch, List.foldl_cons] at ih ⊢
      have h3 := ih (processEntry fails s e)
      cases hf : fails e with
      | false =>
          simp only [processEntry, hf, Bool.false_eq_true, if_false] at h3
          simp [processEntry, hf, h3.1, h3.2.1, h3.2.2, List.filter_cons]
      | true =>
          simp only [processEntry, hf, if_true] at h3
          simp [processEntry, hf, h3.1, h3.2.1, h3.2.2, List.filter_cons]

end Saga
